import Mathlib

set_option maxRecDepth 8000

/-!
Shallow embedding of `src/src/components/modules/blockEvents.ts`, the `BlockEvents`
module of a block-based editor. The data model is pure: blocks, editor state flags
and keyboard events. Each handler is a state-passing function that also returns the
ordered list of collaborator calls (`Op`) it issues. Collaborator modules
(BlockManager, Caret, Toolbar, BlockSelection, UI, Flipper, utils) are not under
`src/`; where a handler depends on their behaviour, that behaviour is modelled from
the spec and marked `Modelled from the spec:` on the definition. JavaScript runtime
throws (explicit `throw new Error` as well as property access on `undefined`) are
modelled by the `err` constructor of `KdResult`, which carries the state at the
moment of the throw (mutations performed before the throw persist).
-/

/-- Caret positions of the Caret module (`start`, `end`, `default`). -/
inductive CaretPos where
  | START
  | END
  | DEFAULT
  deriving Repr, DecidableEq

/-- Capability flags of a block's authoring tool, as read by `blockEvents.ts`. -/
structure Tool where
  isLineBreaksEnabled : Bool := false
  isDefault : Bool := false
  deriving Repr, DecidableEq

/-- A content block, restricted to the fields `blockEvents.ts` reads.
`currentInputIsFirst` models the comparison `currentInput === firstInput`
(two DOM element references; equal in particular when the block has no inputs). -/
structure Block where
  name : String
  isEmpty : Bool := false
  selected : Bool := false
  focused : Bool := false
  hasMedia : Bool := false
  mergeable : Bool := false
  inputsCount : Nat := 1
  currentInputIsFirst : Bool := true
  dropTarget : Bool := false
  tool : Tool := {}
  deriving Repr, DecidableEq

/-- Keyboard event fields read by the module. -/
structure KeyEvent where
  keyCode : Nat
  shiftKey : Bool := false
  metaKey : Bool := false
  ctrlKey : Bool := false
  altKey : Bool := false
  deriving Repr, DecidableEq

namespace keyCodes

/-- Key code of Backspace, from the utils module. -/
def BACKSPACE : Nat := 8

/-- Key code of Tab, from the utils module. -/
def TAB : Nat := 9

/-- Key code of Enter, from the utils module. -/
def ENTER : Nat := 13

/-- Key code of ArrowLeft, from the utils module. -/
def LEFT : Nat := 37

/-- Key code of ArrowUp, from the utils module. -/
def UP : Nat := 38

/-- Key code of ArrowRight, from the utils module. -/
def RIGHT : Nat := 39

/-- Key code of ArrowDown, from the utils module. -/
def DOWN : Nat := 40

end keyCodes

/-- Editor state observed and mutated by `BlockEvents`. Flags of collaborator
modules (toolbars, caret, selection) are carried as fields; `navPrevOk` and
`navNextOk` are oracles for the results of `Caret.navigatePrevious` and
`Caret.navigateNext`. `defaultBlock` is `config.defaultBlock`. -/
structure EditorState where
  blocks : List Block
  currentBlockIndex : Nat := 0
  caretIsAtStart : Bool := false
  caretIsAtEnd : Bool := false
  selectionIsCollapsed : Bool := true
  toolbarOpened : Bool := false
  toolboxOpened : Bool := false
  blockSettingsOpened : Bool := false
  inlineToolbarOpened : Bool := false
  conversionToolbarOpened : Bool := false
  someFlipperButtonFocused : Bool := false
  navPrevOk : Bool := true
  navNextOk : Bool := true
  defaultBlock : String := "paragraph"
  isRtl : Bool := false
  deriving Repr, DecidableEq

/-- Collaborator calls issued by the handlers, in order. -/
inductive Op where
  | preventDefault
  | toolbarClose
  | conversionToolbarClose
  | closeAllToolbars
  | clearFocused
  | clearSelection
  | copySelectedBlocks
  | removeSelectedBlocks
  | insertDefaultBlockAt (idx : Nat) (needToFocus : Bool) (tname : String)
  | removeBlockAt (idx : Nat)
  | splitOp (tname : String)
  | caretSetToBlock (idx : Nat) (pos : CaretPos)
  | toolbarMoveAndOpen (idx : Nat)
  | toolboxOpen
  | blockSettingsOpen
  | caretCreateShadow
  | blocksMergeOp
  | caretRestore
  | caretNavigatePrevious
  | caretNavigateNext
  | toggleCBS (down : Bool)
  | scrollTo
  | scrollBy
  | moveBlock (toIdx : Nat)
  | updateCurrentInputDeferred
  | dropTargetSet (idx : Nat) (v : Bool)
  deriving Repr, DecidableEq

/-- Result of a handler: normal completion or a JavaScript throw. Both carry the
state reached and the collaborator calls issued so far. -/
inductive KdResult where
  | ok (s : EditorState) (tr : List Op)
  | err (msg : String) (s : EditorState) (tr : List Op)
  deriving Repr, DecidableEq

/-- State carried by a result. -/
def KdResult.stateOf : KdResult → EditorState
  | .ok s _ => s
  | .err _ s _ => s

/-- Trace carried by a result. -/
def KdResult.traceOf : KdResult → List Op
  | .ok _ tr => tr
  | .err _ _ tr => tr

/-- Whether the handler completed without throwing. -/
def KdResult.isOk : KdResult → Bool
  | .ok _ _ => true
  | .err _ _ _ => false

/-- Prepend already-issued collaborator calls to a result's trace. -/
def KdResult.withPre (tr0 : List Op) : KdResult → KdResult
  | .ok s tr => .ok s (tr0 ++ tr)
  | .err m s tr => .err m s (tr0 ++ tr)

/-- Allow-list of block types that keep their type when split by Enter
(`DEFAULT_TYPE_ACCEPT`, `blockEvents.ts` lines 9-16). -/
def DEFAULT_TYPE_ACCEPT : List String :=
  ["paragraph", "list", "header", "header01", "header02", "header03"]

/-- Modelled from the spec: the printable-key predicate `_.isPrintableKey` of the
utils module (not under `src/`); the standard editor implementation accepting
digits, space, Enter, IME, letters, numpad and symbol ranges. -/
def isPrintableKey (keyCode : Nat) : Bool :=
  (47 < keyCode && keyCode < 58) || keyCode == 32 || keyCode == 13 || keyCode == 229 ||
  (64 < keyCode && keyCode < 91) || (95 < keyCode && keyCode < 112) ||
  (185 < keyCode && keyCode < 193) || (218 < keyCode && keyCode < 223)

/-- Modelled from the spec: `Flipper.usedKeys` of the flipper module (not under
`src/`): the keys that participate in toolbar-internal flip-navigation. -/
def flipperUsedKeys : List Nat :=
  [keyCodes.TAB, keyCodes.LEFT, keyCodes.RIGHT, keyCodes.ENTER, keyCodes.UP, keyCodes.DOWN]

/-- Flipper-combination test computed identically at the top of both arrow handlers
(`blockEvents.ts` lines 534-536 and 607-610). -/
def isFlipperCombination (e : KeyEvent) : Bool :=
  flipperUsedKeys.contains e.keyCode && (!e.shiftKey || e.keyCode == keyCodes.TAB)

/-- Modelled from the spec: `UI.someToolbarOpened` of the UI module (not under
`src/`): whether block settings, the inline toolbar, the conversion toolbar or the
toolbox is open. -/
def someToolbarOpened (s : EditorState) : Bool :=
  s.blockSettingsOpened || s.inlineToolbarOpened || s.conversionToolbarOpened || s.toolboxOpened

/-- Modelled from the spec: `BlockSelection.anyBlockSelected` of the selection
module (not under `src/`): some block is selected. -/
def anyBlockSelected (s : EditorState) : Bool :=
  s.blocks.any (fun b => b.selected)

/-- Modelled from the spec: `BlockManager.currentBlock`, the block at the current
block index (`undefined` when the index is out of range). -/
def currentBlock (s : EditorState) : Option Block :=
  s.blocks.get? s.currentBlockIndex

/-- Modelled from the spec: `BlockManager.previousBlock`, the block before the
current one (`undefined` for the first block). -/
def previousBlock (s : EditorState) : Option Block :=
  if s.currentBlockIndex == 0 then none else s.blocks.get? (s.currentBlockIndex - 1)

/-- Insert an element at an index of a list (append when the index exceeds the
length, as JavaScript splice does). -/
def insertAt (xs : List Block) (i : Nat) (x : Block) : List Block :=
  xs.take i ++ x :: xs.drop i

/-- Apply a function to the element at an index, when it exists. -/
def modifyBlockAt : List Block → Nat → (Block → Block) → List Block
  | [], _, _ => []
  | b :: rest, 0, f => f b :: rest
  | b :: rest, n + 1, f => b :: modifyBlockAt rest n f

/-- Modelled from the spec: `BlockManager.clearFocused`, clearing the focused flag
of every block. -/
def clearFocusedState (s : EditorState) : EditorState :=
  { s with blocks := s.blocks.map (fun b => { b with focused := false }) }

/-- Modelled from the spec: `BlockSelection.clearSelection`, clearing the selected
flag of every block. -/
def clearSelectionState (s : EditorState) : EditorState :=
  { s with blocks := s.blocks.map (fun b => { b with selected := false }) }

/-- Modelled from the spec: a freshly inserted block of the given tool name —
empty, unselected, its tool flagged default exactly when the name is the configured
default block type. -/
def mkBlockOfType (s : EditorState) (tname : String) : Block :=
  { name := tname, isEmpty := true, tool := { isDefault := tname == s.defaultBlock } }

/-- Modelled from the spec: `BlockManager.insertDefaultBlockAtIndex` (not under
`src/`). The spec says Enter at block start "inserts a new default block above" and
at block end "appends a new block after (preserving list type)"; at the call sites
the third argument is the tool name of the block to insert (`"list"` in the
preserving case), defaulting to the configured default block type. Modelled as
inserting a fresh block of that tool name at the index; the new block becomes
current when `needToFocus` is set, otherwise the current index shifts to keep
pointing at the same block. Returns the index of the inserted block. -/
def insertDefaultBlockAtIndex (s : EditorState) (idx : Nat) (needToFocus : Bool)
    (toolName : Option String) : EditorState × Nat :=
  let tname := toolName.getD s.defaultBlock
  let nb := mkBlockOfType s tname
  let cbi :=
    if needToFocus then idx
    else if idx ≤ s.currentBlockIndex then s.currentBlockIndex + 1
    else s.currentBlockIndex
  ({ s with blocks := insertAt s.blocks idx nb, currentBlockIndex := cbi }, idx)

/-- Modelled from the spec: `BlockManager.split` (not under `src/`): "splits the
block's content at the caret into two blocks", the new block carrying the given
tool name and placed right after the current block, which becomes current. Returns
the index of the new block. -/
def splitBlock (s : EditorState) (tname : String) : EditorState × Nat :=
  let idx := s.currentBlockIndex + 1
  ({ s with blocks := insertAt s.blocks idx (mkBlockOfType s tname),
            currentBlockIndex := idx }, idx)

/-- Modelled from the spec: `BlockManager.removeBlock` (not under `src/`): removes
the block at the index; the current block index moves back by one when the removal
is at or before it (the spec's "resulting current block"). -/
def removeBlockAtState (s : EditorState) (idx : Nat) : EditorState :=
  { s with blocks := s.blocks.eraseIdx idx,
           currentBlockIndex :=
             if idx ≤ s.currentBlockIndex && s.currentBlockIndex ≠ 0
             then s.currentBlockIndex - 1 else s.currentBlockIndex }

/-- Modelled from the spec: `BlocksAPI.move(toIndex)` (not under `src/`): moves the
current block to the given index, which becomes the current index. -/
def moveBlockState (s : EditorState) (toIdx : Nat) : EditorState :=
  match s.blocks.get? s.currentBlockIndex with
  | none => s
  | some b =>
    { s with blocks := insertAt (s.blocks.eraseIdx s.currentBlockIndex) toIdx b,
             currentBlockIndex := toIdx }

/-- Cases when the Toolbar needs closing (`BlockEvents.needToolbarClosing`,
lines 669-696). -/
def needToolbarClosing (s : EditorState) (e : KeyEvent) : Bool :=
  let toolboxItemSelected := e.keyCode == keyCodes.ENTER && s.toolboxOpened
  let blockSettingsItemSelected := e.keyCode == keyCodes.ENTER && s.blockSettingsOpened
  let inlineToolbarItemSelected := e.keyCode == keyCodes.ENTER && s.inlineToolbarOpened
  let conversionToolbarItemSelected := e.keyCode == keyCodes.ENTER && s.conversionToolbarOpened
  let flippingToolbarItems := e.keyCode == keyCodes.TAB
  !(e.shiftKey || flippingToolbarItems || toolboxItemSelected ||
    blockSettingsItemSelected || inlineToolbarItemSelected || conversionToolbarItemSelected)

/-- Pre-processing applied to every keydown (`BlockEvents.beforeKeydownProcessing`,
lines 152-183). -/
def beforeKeydownProcessing (s : EditorState) (e : KeyEvent) : EditorState × List Op :=
  if !needToolbarClosing s e then (s, [])
  else if isPrintableKey e.keyCode then
    let s1 := { s with toolbarOpened := false, conversionToolbarOpened := false }
    let tr1 := [Op.toolbarClose, Op.conversionToolbarClose]
    let isShortcut := e.ctrlKey || e.metaKey || e.altKey || e.shiftKey
    if !isShortcut then
      (clearSelectionState (clearFocusedState s1), tr1 ++ [Op.clearFocused, Op.clearSelection])
    else (s1, tr1)
  else (s, [])

/-- Toolbox activation (`BlockEvents.activateToolbox`, lines 701-707). -/
def activateToolbox (s : EditorState) : EditorState × List Op :=
  let a :=
    if !s.toolbarOpened
    then ({ s with toolbarOpened := true }, [Op.toolbarMoveAndOpen s.currentBlockIndex])
    else (s, [])
  ({ a.1 with toolboxOpened := true }, a.2 ++ [Op.toolboxOpen])

/-- Block settings activation (`BlockEvents.activateBlockSettings`, lines 712-730). -/
def activateBlockSettings (s : EditorState) : EditorState × List Op :=
  let a :=
    if !s.toolbarOpened
    then ({ s with toolbarOpened := true,
                   blocks := modifyBlockAt s.blocks s.currentBlockIndex
                     (fun b => { b with focused := true }) },
          [Op.toolbarMoveAndOpen s.currentBlockIndex])
    else (s, [])
  if !a.1.blockSettingsOpened then
    ({ a.1 with blockSettingsOpened := true }, a.2 ++ [Op.blockSettingsOpen])
  else (a.1, a.2)

/-- Tab keydown handler (`BlockEvents.tabPressed`, lines 211-240). -/
def tabPressed (s : EditorState) (_e : KeyEvent) : EditorState × List Op :=
  let s0 := clearSelectionState s
  let tr0 := [Op.preventDefault, Op.clearSelection]
  match currentBlock s0 with
  | none => (s0, tr0)
  | some cb =>
    let isEmptyBlock := cb.isEmpty
    let canOpenToolbox := cb.tool.isDefault && isEmptyBlock
    let conversionToolbarNow := !isEmptyBlock && s0.conversionToolbarOpened
    let inlineToolbarNow := !isEmptyBlock && !s0.selectionIsCollapsed && s0.inlineToolbarOpened
    let canOpenBlockTunes := !conversionToolbarNow && !inlineToolbarNow
    if canOpenToolbox then
      let a := activateToolbox s0
      (a.1, tr0 ++ a.2)
    else if canOpenBlockTunes then
      let a := activateBlockSettings s0
      (a.1, tr0 ++ a.2)
    else (s0, tr0)

/-- Drag-over handler (`BlockEvents.dragOver`, lines 247-253). The resolution of
the event target by `BlockManager.getBlockByChildNode` is a parameter: the index of
the block whose subtree contains the target, or `none`. Writing `dropTarget` on an
unresolved (`undefined`) block throws a TypeError. -/
def dragOver (s : EditorState) (targetBlockIdx : Option Nat) : KdResult :=
  match targetBlockIdx with
  | none => KdResult.err "TypeError" s []
  | some i =>
    KdResult.ok
      { s with blocks := modifyBlockAt s.blocks i (fun b => { b with dropTarget := true }) }
      [Op.dropTargetSet i true]

/-- Drag-leave handler (`BlockEvents.dragLeave`, lines 260-266). -/
def dragLeave (s : EditorState) (targetBlockIdx : Option Nat) : KdResult :=
  match targetBlockIdx with
  | none => KdResult.err "TypeError" s []
  | some i =>
    KdResult.ok
      { s with blocks := modifyBlockAt s.blocks i (fun b => { b with dropTarget := false }) }
      [Op.dropTargetSet i false]

/-- Copy handler (`BlockEvents.handleCommandC`, lines 274-283). -/
def handleCommandC (s : EditorState) : EditorState × List Op :=
  if !anyBlockSelected s then (s, [])
  else (s, [Op.copySelectedBlocks])

/-- Cut handler (`BlockEvents.handleCommandX`, lines 290-313). Modelled from the
spec for the collaborator effects: `BlockSelection.copySelectedBlocks` returns a
promise and "a cut operation waits for the asynchronous clipboard copy to finish
before deleting blocks" (spec section 5), so the continuation runs after the copy in
program order; `BlockManager.removeSelectedBlocks` removes every selected block and
returns the index of the first selected one. -/
def handleCommandX (s : EditorState) : EditorState × List Op :=
  if !anyBlockSelected s then (s, [])
  else
    let idx := s.blocks.findIdx (fun b => b.selected)
    let s1 := { s with blocks := s.blocks.filter (fun b => !b.selected) }
    let p := insertDefaultBlockAtIndex s1 idx true none
    let s3 := clearSelectionState p.1
    (s3, [Op.copySelectedBlocks, Op.removeSelectedBlocks,
          Op.insertDefaultBlockAt idx true s.defaultBlock,
          Op.caretSetToBlock p.2 CaretPos.START, Op.clearSelection])

/-- Enter keydown handler (`BlockEvents.enter`, lines 320-405). -/
def enter (s : EditorState) (e : KeyEvent) : KdResult :=
  match currentBlock s with
  | none => KdResult.err "TypeError" s []
  | some cb =>
    if cb.tool.isLineBreaksEnabled then KdResult.ok s []
    else if someToolbarOpened s && s.someFlipperButtonFocused then KdResult.ok s []
    else if e.shiftKey then KdResult.ok s []
    else
      let cbi := s.currentBlockIndex
      let step :=
        if s.caretIsAtStart && !cb.hasMedia then
          if cb.name == "list" then
            let p := insertDefaultBlockAtIndex s cbi false (some s.defaultBlock)
            (p.1, p.2, [Op.insertDefaultBlockAt cbi false s.defaultBlock])
          else
            let p := insertDefaultBlockAtIndex s cbi false none
            (p.1, cbi + 1, [Op.insertDefaultBlockAt cbi false s.defaultBlock])
        else if s.caretIsAtEnd then
          if cb.name == "list" then
            let p := insertDefaultBlockAtIndex s (cbi + 1) false (some "list")
            (p.1, p.2, [Op.insertDefaultBlockAt (cbi + 1) false "list"])
          else
            let p := insertDefaultBlockAtIndex s (cbi + 1) false none
            (p.1, p.2, [Op.insertDefaultBlockAt (cbi + 1) false s.defaultBlock])
        else
          let newBlockType := cb.name
          let t := if DEFAULT_TYPE_ACCEPT.contains newBlockType then newBlockType else "paragraph"
          let p := splitBlock s t
          (p.1, p.2, [Op.splitOp t])
      KdResult.ok step.1
        (step.2.2 ++ [Op.caretSetToBlock step.2.1 CaretPos.DEFAULT,
                      Op.toolbarMoveAndOpen step.2.1, Op.preventDefault])

/-- Merge of current and previous block (`BlockEvents.mergeBlocks`, lines 489-526).
Modelled from the spec for the merge effect itself: on a successful merge the
current block's content is merged into the target and the current block is removed;
caret shadow creation, the asynchronous merge resolution, caret restoration and
toolbar closing are recorded in program order. -/
def mergeBlocksStep (s : EditorState) : KdResult :=
  match previousBlock s, currentBlock s with
  | some targetBlock, some blockToMerge =>
    if blockToMerge.name != targetBlock.name || !targetBlock.mergeable then
      if targetBlock.inputsCount == 0 || targetBlock.isEmpty then
        let s1 := removeBlockAtState s (s.currentBlockIndex - 1)
        KdResult.ok { s1 with toolbarOpened := false }
          [Op.removeBlockAt (s.currentBlockIndex - 1),
           Op.caretSetToBlock s1.currentBlockIndex CaretPos.DEFAULT, Op.toolbarClose]
      else if s.navPrevOk then
        KdResult.ok { s with toolbarOpened := false } [Op.caretNavigatePrevious, Op.toolbarClose]
      else KdResult.ok s [Op.caretNavigatePrevious]
    else
      KdResult.ok
        { s with blocks := s.blocks.eraseIdx s.currentBlockIndex,
                 currentBlockIndex := s.currentBlockIndex - 1,
                 toolbarOpened := false }
        [Op.caretCreateShadow, Op.blocksMergeOp, Op.caretRestore, Op.toolbarClose]
  | _, _ => KdResult.err "TypeError" s []

/-- Backspace keydown handler (`BlockEvents.backspace`, lines 412-484). -/
def backspace (s : EditorState) (_e : KeyEvent) : KdResult :=
  match currentBlock s with
  | none => KdResult.err "TypeError" s []
  | some cb =>
    if cb.selected || (cb.isEmpty && cb.currentInputIsFirst) then
      let index := s.currentBlockIndex
      let prevIsMedia :=
        match previousBlock s with
        | some pb => pb.inputsCount == 0 && (pb.name == "image" || pb.name == "gallery")
        | none => false
      let rIdx := if prevIsMedia then index - 1 else index
      let s1 := removeBlockAtState s rIdx
      let pos := if index == 0 then CaretPos.START else CaretPos.END
      KdResult.ok (clearSelectionState { s1 with toolbarOpened := false })
        [Op.preventDefault, Op.removeBlockAt rIdx,
         Op.caretSetToBlock s1.currentBlockIndex pos, Op.toolbarClose, Op.clearSelection]
    else if cb.tool.isLineBreaksEnabled && !s.caretIsAtStart then KdResult.ok s []
    else
      let isFirstBlock := s.currentBlockIndex == 0
      let canMergeBlocks :=
        s.caretIsAtStart && s.selectionIsCollapsed && cb.currentInputIsFirst && !isFirstBlock
      if canMergeBlocks then (mergeBlocksStep s).withPre [Op.preventDefault]
      else KdResult.ok s []

/-- Right and down arrow handler (`BlockEvents.arrowRightAndDown`, lines 533-594). -/
def arrowRightAndDown (s : EditorState) (e : KeyEvent) : EditorState × List Op :=
  if someToolbarOpened s && isFlipperCombination e then (s, [])
  else
    let s1 := { clearFocusedState s with toolbarOpened := false }
    let tr1 := [Op.clearFocused, Op.toolbarClose]
    let shouldEnableCBS := s.caretIsAtEnd || anyBlockSelected s
    if e.shiftKey && e.keyCode == keyCodes.DOWN && shouldEnableCBS then
      (s1, tr1 ++ [Op.toggleCBS true])
    else
      let navigateNext :=
        e.keyCode == keyCodes.DOWN || (e.keyCode == keyCodes.RIGHT && !s.isRtl)
      let isNavigated := if navigateNext then s.navNextOk else s.navPrevOk
      let trNav := if navigateNext then [Op.caretNavigateNext] else [Op.caretNavigatePrevious]
      let tr2 :=
        if isNavigated then trNav ++ [Op.preventDefault]
        else trNav ++ [Op.updateCurrentInputDeferred]
      (clearSelectionState s1, tr1 ++ tr2 ++ [Op.clearSelection])

/-- Left and up arrow handler (`BlockEvents.arrowLeftAndUp`, lines 601-662). -/
def arrowLeftAndUp (s : EditorState) (e : KeyEvent) : EditorState × List Op :=
  if someToolbarOpened s && isFlipperCombination e then (s, [])
  else
    let a :=
      if someToolbarOpened s then
        ({ s with toolbarOpened := false, toolboxOpened := false,
                  blockSettingsOpened := false, inlineToolbarOpened := false,
                  conversionToolbarOpened := false },
         [Op.closeAllToolbars])
      else (s, [])
    let s1 := { clearFocusedState a.1 with toolbarOpened := false }
    let tr1 := a.2 ++ [Op.clearFocused, Op.toolbarClose]
    let shouldEnableCBS := s.caretIsAtStart || anyBlockSelected s
    if e.shiftKey && e.keyCode == keyCodes.UP && shouldEnableCBS then
      (s1, tr1 ++ [Op.toggleCBS false])
    else
      let navigatePreviousHere :=
        e.keyCode == keyCodes.UP || (e.keyCode == keyCodes.LEFT && !s.isRtl)
      let isNavigated := if navigatePreviousHere then s.navPrevOk else s.navNextOk
      let trNav :=
        if navigatePreviousHere then [Op.caretNavigatePrevious] else [Op.caretNavigateNext]
      let tr2 :=
        if isNavigated then trNav ++ [Op.preventDefault]
        else trNav ++ [Op.updateCurrentInputDeferred]
      (clearSelectionState s1, tr1 ++ tr2 ++ [Op.clearSelection])

/-- Shift+Cmd reorder branch of the DOWN case of the keydown switch
(`BlockEvents.keydown`, lines 44-82). Reading `name` of an `undefined` current
block and the explicit `throw` when there is no next block are both throws. -/
def keydownDownReorder (s : EditorState) (e : KeyEvent) : KdResult :=
  if e.shiftKey && e.metaKey then
    match s.blocks.get? s.currentBlockIndex with
    | none => KdResult.err "TypeError" s []
    | some cb =>
      if cb.name == "image" then
        match s.blocks.get? (s.currentBlockIndex + 1) with
        | none => KdResult.err "Unable to move Block down since it is already the last" s []
        | some _ =>
          KdResult.ok (moveBlockState s (s.currentBlockIndex + 1))
            [Op.scrollTo, Op.moveBlock (s.currentBlockIndex + 1)]
      else KdResult.ok s []
  else KdResult.ok s []

/-- Shift+Cmd reorder branch of the UP case of the keydown switch
(`BlockEvents.keydown`, lines 87-136). `getBlockByIndex(-1)` yields `undefined`
when the current block is first. -/
def keydownUpReorder (s : EditorState) (e : KeyEvent) : KdResult :=
  if e.shiftKey && e.metaKey then
    match s.blocks.get? s.currentBlockIndex with
    | none => KdResult.err "TypeError" s []
    | some cb =>
      if cb.name == "image" then
        let previousBlockOpt :=
          if s.currentBlockIndex == 0 then none
          else s.blocks.get? (s.currentBlockIndex - 1)
        if s.currentBlockIndex == 0 || previousBlockOpt.isNone then
          KdResult.err "Unable to move Block up since it is already the first" s []
        else
          KdResult.ok (moveBlockState s (s.currentBlockIndex - 1))
            [Op.scrollBy, Op.moveBlock (s.currentBlockIndex - 1)]
      else KdResult.ok s []
  else KdResult.ok s []

/-- Keydown dispatcher (`BlockEvents.keydown`, lines 26-145). The DOWN case falls
through into the RIGHT case and the UP case falls through into the LEFT case, as in
the source switch (no `break` between them). -/
def keydown (s : EditorState) (e : KeyEvent) : KdResult :=
  let pre := beforeKeydownProcessing s e
  let s0 := pre.1
  let tr0 := pre.2
  if e.keyCode == keyCodes.BACKSPACE then (backspace s0 e).withPre tr0
  else if e.keyCode == keyCodes.ENTER then (enter s0 e).withPre tr0
  else if e.keyCode == keyCodes.DOWN then
    match keydownDownReorder s0 e with
    | KdResult.err m s1 tr1 => KdResult.err m s1 (tr0 ++ tr1)
    | KdResult.ok s1 tr1 =>
      let a := arrowRightAndDown s1 e
      KdResult.ok a.1 (tr0 ++ tr1 ++ a.2)
  else if e.keyCode == keyCodes.RIGHT then
    let a := arrowRightAndDown s0 e
    KdResult.ok a.1 (tr0 ++ a.2)
  else if e.keyCode == keyCodes.UP then
    match keydownUpReorder s0 e with
    | KdResult.err m s1 tr1 => KdResult.err m s1 (tr0 ++ tr1)
    | KdResult.ok s1 tr1 =>
      let a := arrowLeftAndUp s1 e
      KdResult.ok a.1 (tr0 ++ tr1 ++ a.2)
  else if e.keyCode == keyCodes.LEFT then
    let a := arrowLeftAndUp s0 e
    KdResult.ok a.1 (tr0 ++ a.2)
  else if e.keyCode == keyCodes.TAB then
    let a := tabPressed s0 e
    KdResult.ok a.1 (tr0 ++ a.2)
  else KdResult.ok s0 tr0

/-- Sample plain Enter keydown (no modifiers). -/
def plainEnter : KeyEvent := { keyCode := 13 }

/-- Sample list block. -/
def sampleListBlock : Block := { name := "list", mergeable := true }

/-- Sample paragraph block. -/
def sampleParagraph : Block := { name := "paragraph" }

/-- Sample quote block (a type outside the split allow-list). -/
def sampleQuote : Block := { name := "quote" }

/-- Editor with a list block first and the caret at its start. -/
def c1StartState : EditorState :=
  { blocks := [sampleListBlock, sampleParagraph], currentBlockIndex := 0,
    caretIsAtStart := true }

/-- Editor with a list block first and the caret at its end. -/
def c1EndState : EditorState :=
  { blocks := [sampleListBlock, sampleParagraph], currentBlockIndex := 0,
    caretIsAtEnd := true }

/-- Editor with the caret strictly inside a quote block. -/
def c2MidState : EditorState :=
  { blocks := [sampleQuote, sampleParagraph], currentBlockIndex := 0 }

/-- Sample Backspace keydown. -/
def bsEvent : KeyEvent := { keyCode := 8 }

/-- Editor whose second block is empty, with an input-less image block before it. -/
def c3State : EditorState :=
  { blocks := [{ name := "image", inputsCount := 0 },
               { name := "paragraph", isEmpty := true }],
    currentBlockIndex := 1 }

/-- The current block of `c3State`. -/
def c3Cb : Block := { name := "paragraph", isEmpty := true }

/-- Editor with two list blocks, caret at the start of the second. -/
def c4State : EditorState :=
  { blocks := [{ name := "list", mergeable := true }, { name := "list" }],
    currentBlockIndex := 1, caretIsAtStart := true }

/-- The current block of `c4State`. -/
def c4Cb : Block := { name := "list" }

/-- The previous (target) block of `c4State`. -/
def c4Pb : Block := { name := "list", mergeable := true }

/-- Sample printable-letter keydown (key code of the letter A). -/
def letterEvent : KeyEvent := { keyCode := 65 }

/-- Editor with one paragraph block and everything closed. -/
def c5State : EditorState := { blocks := [sampleParagraph] }

/-- Sample Tab keydown. -/
def tabEvent : KeyEvent := { keyCode := 9 }

/-- Editor with a single empty default-type block. -/
def c6State : EditorState :=
  { blocks := [{ name := "paragraph", isEmpty := true, tool := { isDefault := true } }] }

/-- The current block of `c6State`. -/
def c6Cb : Block := { name := "paragraph", isEmpty := true, tool := { isDefault := true } }

/-- Editor with a selected quote block after a paragraph. -/
def c7State : EditorState :=
  { blocks := [sampleParagraph, { name := "quote", selected := true }],
    currentBlockIndex := 0 }

/-- Shift+Cmd ArrowDown keydown. -/
def reorderDownEvent : KeyEvent := { keyCode := 40, shiftKey := true, metaKey := true }

/-- Shift+Cmd ArrowUp keydown. -/
def reorderUpEvent : KeyEvent := { keyCode := 38, shiftKey := true, metaKey := true }

/-- Editor with an image block first. -/
def c8State : EditorState :=
  { blocks := [{ name := "image" }, sampleParagraph], currentBlockIndex := 0 }

/-- The image block of `c8State`. -/
def c8Image : Block := { name := "image" }

/-- Plain ArrowDown keydown. -/
def arrowDownEvent : KeyEvent := { keyCode := 40 }

/-- Editor with one paragraph block, used for the arrow fallthrough witness. -/
def c9State : EditorState := { blocks := [sampleParagraph] }

/-- Editor with one paragraph block, used for the drag witness. -/
def c10State : EditorState := { blocks := [sampleParagraph] }

theorem insertAt_get?_self : ∀ (xs : List Block) (i : Nat) (x : Block), i ≤ xs.length →
    (insertAt xs i x).get? i = some x := by
  intro xs
  induction xs with
  | nil =>
    intro i x h
    have : i = 0 := Nat.le_zero.mp h
    subst this
    rfl
  | cons b rest ih =>
    intro i x h
    cases i with
    | zero => rfl
    | succ n =>
      show (b :: insertAt rest n x).get? (n + 1) = some x
      simpa using ih n x (Nat.le_of_succ_le_succ h)

theorem insertAt_length (xs : List Block) (i : Nat) (x : Block) :
    (insertAt xs i x).length = xs.length + 1 := by
  simp [insertAt]
  omega

theorem get?_some_lt {l : List Block} {n : Nat} {b : Block} (h : l.get? n = some b) :
    n < l.length := by
  by_contra hn
  rw [List.get?_eq_none.mpr (Nat.le_of_not_lt hn)] at h
  cases h

/-- C1 (counterexample): with the default block type configured as "paragraph", a
handled Enter keydown with the caret at the start of a "list" block inserts a block
named "paragraph" above it — the inserted block does not preserve the list type. -/
theorem c1_counterexample :
    (enter c1StartState plainEnter).isOk = true ∧
    (enter c1StartState plainEnter).traceOf.head? =
      some (Op.insertDefaultBlockAt 0 false "paragraph") ∧
    (enter c1StartState plainEnter).stateOf.blocks.map Block.name =
      ["paragraph", "list", "paragraph"] ∧
    ((enter c1StartState plainEnter).stateOf.blocks.get? 0).map Block.name =
      some "paragraph" ∧
    "paragraph" ≠ "list" := by
  refine ⟨rfl, rfl, rfl, rfl, by decide⟩

/-- C1 (amended): for a handled Enter keydown (line breaks not tool-handled, no
flipper button focused, shift not held) on a block named "list": if the caret is at
block start (and the block has no media), a block of the configured default type is
inserted above it and the caret is set to that inserted block; if the caret is at
block end (and the at-start branch was not taken), the block appended after
preserves the list type. -/
theorem c1_enter_list (s : EditorState) (cb : Block) (e : KeyEvent)
    (hcb : currentBlock s = some cb) (hname : cb.name = "list")
    (hlb : cb.tool.isLineBreaksEnabled = false)
    (hfl : s.someFlipperButtonFocused = false)
    (hsh : e.shiftKey = false) :
    (s.caretIsAtStart = true → cb.hasMedia = false →
      (enter s e).isOk = true ∧
      (enter s e).stateOf.blocks.get? s.currentBlockIndex =
        some (mkBlockOfType s s.defaultBlock) ∧
      (mkBlockOfType s s.defaultBlock).name = s.defaultBlock ∧
      (enter s e).traceOf =
        [Op.insertDefaultBlockAt s.currentBlockIndex false s.defaultBlock,
         Op.caretSetToBlock s.currentBlockIndex CaretPos.DEFAULT,
         Op.toolbarMoveAndOpen s.currentBlockIndex, Op.preventDefault]) ∧
    (¬ (s.caretIsAtStart = true ∧ cb.hasMedia = false) → s.caretIsAtEnd = true →
      (enter s e).isOk = true ∧
      (enter s e).stateOf.blocks.get? (s.currentBlockIndex + 1) =
        some (mkBlockOfType s "list") ∧
      (mkBlockOfType s "list").name = "list" ∧
      (enter s e).traceOf =
        [Op.insertDefaultBlockAt (s.currentBlockIndex + 1) false "list",
         Op.caretSetToBlock (s.currentBlockIndex + 1) CaretPos.DEFAULT,
         Op.toolbarMoveAndOpen (s.currentBlockIndex + 1), Op.preventDefault]) := by
  have hlt : s.currentBlockIndex < s.blocks.length := get?_some_lt hcb
  constructor
  · intro hst hm
    simp only [enter, hcb, hlb, hfl, hsh, hst, hm, hname, someToolbarOpened,
      Bool.and_false, if_false, Bool.not_false, Bool.and_true]
    simp only [insertDefaultBlockAtIndex, Option.getD, mkBlockOfType]
    refine ⟨by trivial, ?_, by trivial, by trivial⟩
    exact insertAt_get?_self _ _ _ (Nat.le_of_lt hlt)
  · intro hns hen
    have hcases : s.caretIsAtStart = false ∨ cb.hasMedia = true := by
      by_cases h1 : s.caretIsAtStart = true
      · right
        by_cases h2 : cb.hasMedia = true
        · exact h2
        · exact absurd ⟨h1, Bool.eq_false_iff.mpr (by simpa using h2)⟩ hns
      · left; simpa using h1
    simp only [enter, hcb, hlb, hfl, hsh, hen, hname, someToolbarOpened, Bool.and_false]
    rcases hcases with h | h
    · simp only [h, Bool.false_and]
      simp only [insertDefaultBlockAtIndex, Option.getD, mkBlockOfType]
      refine ⟨by trivial, ?_, by trivial, by trivial⟩
      exact insertAt_get?_self _ _ _ (Nat.succ_le_of_lt hlt)
    · simp only [h, Bool.not_true, Bool.and_false]
      simp only [insertDefaultBlockAtIndex, Option.getD, mkBlockOfType]
      refine ⟨by trivial, ?_, by trivial, by trivial⟩
      exact insertAt_get?_self _ _ _ (Nat.succ_le_of_lt hlt)

/-- C1 (witness): concrete run of the at-block-end leg on a list block. -/
theorem c1_enter_list_witness :
    (enter c1EndState plainEnter).isOk = true ∧
    (enter c1EndState plainEnter).stateOf.blocks.get? 1 =
      some (mkBlockOfType c1EndState "list") ∧
    (mkBlockOfType c1EndState "list").name = "list" ∧
    (enter c1EndState plainEnter).traceOf =
      [Op.insertDefaultBlockAt 1 false "list", Op.caretSetToBlock 1 CaretPos.DEFAULT,
       Op.toolbarMoveAndOpen 1, Op.preventDefault] := by
  have h := (c1_enter_list c1EndState sampleListBlock plainEnter rfl rfl rfl rfl rfl).2
    (by decide) rfl
  simpa using h

/-- C2: a handled Enter keydown with the caret neither at block start nor at block
end splits the current block in two: the new block keeps the original type name
exactly when that name is in DEFAULT_TYPE_ACCEPT and is "paragraph" otherwise;
afterwards the caret is set to the resulting block and the toolbar is moved and
opened at it. -/
theorem c2_enter_split (s : EditorState) (cb : Block) (e : KeyEvent)
    (hcb : currentBlock s = some cb)
    (hlb : cb.tool.isLineBreaksEnabled = false)
    (hfl : s.someFlipperButtonFocused = false)
    (hsh : e.shiftKey = false)
    (hst : s.caretIsAtStart = false) (hen : s.caretIsAtEnd = false) :
    (enter s e).isOk = true ∧
    (enter s e).stateOf.blocks.length = s.blocks.length + 1 ∧
    (enter s e).stateOf.blocks.get? (s.currentBlockIndex + 1) =
      some (mkBlockOfType s
        (if DEFAULT_TYPE_ACCEPT.contains cb.name then cb.name else "paragraph")) ∧
    (mkBlockOfType s
        (if DEFAULT_TYPE_ACCEPT.contains cb.name then cb.name else "paragraph")).name =
      (if DEFAULT_TYPE_ACCEPT.contains cb.name then cb.name else "paragraph") ∧
    (enter s e).stateOf.currentBlockIndex = s.currentBlockIndex + 1 ∧
    (enter s e).traceOf =
      [Op.splitOp (if DEFAULT_TYPE_ACCEPT.contains cb.name then cb.name else "paragraph"),
       Op.caretSetToBlock (s.currentBlockIndex + 1) CaretPos.DEFAULT,
       Op.toolbarMoveAndOpen (s.currentBlockIndex + 1), Op.preventDefault] := by
  have hlt : s.currentBlockIndex < s.blocks.length := get?_some_lt hcb
  simp only [enter, hcb, hlb, hfl, hsh, hst, hen, someToolbarOpened, Bool.and_false,
    Bool.false_and, splitBlock, mkBlockOfType]
  refine ⟨by trivial, ?_, ?_, by trivial, by trivial, by trivial⟩
  · simp [KdResult.stateOf, insertAt_length]
  · exact insertAt_get?_self _ _ _ (Nat.succ_le_of_lt hlt)

/-- C2 (witness): concrete split of a quote block, falling back to "paragraph". -/
theorem c2_enter_split_witness :
    (enter c2MidState plainEnter).isOk = true ∧
    (enter c2MidState plainEnter).stateOf.blocks.length = 3 ∧
    (enter c2MidState plainEnter).stateOf.blocks.get? 1 =
      some (mkBlockOfType c2MidState "paragraph") ∧
    (enter c2MidState plainEnter).stateOf.currentBlockIndex = 1 ∧
    (enter c2MidState plainEnter).traceOf =
      [Op.splitOp "paragraph", Op.caretSetToBlock 1 CaretPos.DEFAULT,
       Op.toolbarMoveAndOpen 1, Op.preventDefault] := by
  have h := c2_enter_split c2MidState sampleQuote plainEnter rfl rfl rfl rfl rfl rfl
  have he : (if DEFAULT_TYPE_ACCEPT.contains sampleQuote.name
      then sampleQuote.name else "paragraph") = "paragraph" := by decide
  rw [he] at h
  obtain ⟨h1, h2, h3, _, h5, h6⟩ := h
  exact ⟨h1, h2, h3, h5, h6⟩

theorem map_name_clearSel (l : List Block) :
    (l.map (fun b => { b with selected := false })).map Block.name = l.map Block.name := by
  induction l with
  | nil => rfl
  | cons b rest ih => simp

theorem anyBlockSelected_clearSelectionState (s : EditorState) :
    anyBlockSelected (clearSelectionState s) = false := by
  simp [anyBlockSelected, clearSelectionState]

/-- C3: a Backspace keydown on a block that is selected, or empty with its current
input equal to its first input, removes the block — or the previous block instead
when that one has no inputs and is named "image" or "gallery" — then sets the caret
to the resulting current block at END when the original index was non-zero and at
START when it was zero, closes the toolbar and clears the block selection. -/
theorem c3_backspace_remove (s : EditorState) (cb : Block) (e : KeyEvent) (rIdx : Nat)
    (hcb : currentBlock s = some cb)
    (hcond : cb.selected = true ∨ (cb.isEmpty = true ∧ cb.currentInputIsFirst = true))
    (hr : rIdx = (if (match previousBlock s with
        | some pb => pb.inputsCount == 0 && (pb.name == "image" || pb.name == "gallery")
        | none => false)
      then s.currentBlockIndex - 1 else s.currentBlockIndex)) :
    (backspace s e).isOk = true ∧
    (backspace s e).traceOf =
      [Op.preventDefault, Op.removeBlockAt rIdx,
       Op.caretSetToBlock (removeBlockAtState s rIdx).currentBlockIndex
         (if s.currentBlockIndex == 0 then CaretPos.START else CaretPos.END),
       Op.toolbarClose, Op.clearSelection] ∧
    (backspace s e).stateOf.blocks.map Block.name = (s.blocks.eraseIdx rIdx).map Block.name ∧
    (backspace s e).stateOf.toolbarOpened = false ∧
    anyBlockSelected (backspace s e).stateOf = false := by
  subst hr
  have hc : (cb.selected || (cb.isEmpty && cb.currentInputIsFirst)) = true := by
    rcases hcond with h | ⟨h1, h2⟩
    · simp [h]
    · simp [h1, h2]
  simp only [backspace, hcb, hc, if_true]
  refine ⟨by trivial, by trivial, ?_, by trivial, anyBlockSelected_clearSelectionState _⟩
  simp only [KdResult.stateOf, clearSelectionState, removeBlockAtState]
  exact map_name_clearSel _

/-- C3 (witness): concrete removal of the input-less image block before an empty
block, caret to END since the original index was non-zero. -/
theorem c3_backspace_remove_witness :
    (backspace c3State bsEvent).isOk = true ∧
    (backspace c3State bsEvent).traceOf =
      [Op.preventDefault, Op.removeBlockAt 0, Op.caretSetToBlock 0 CaretPos.END,
       Op.toolbarClose, Op.clearSelection] ∧
    (backspace c3State bsEvent).stateOf.blocks.map Block.name = ["paragraph"] ∧
    (backspace c3State bsEvent).stateOf.toolbarOpened = false ∧
    anyBlockSelected (backspace c3State bsEvent).stateOf = false := by
  obtain ⟨h1, h2, h3, h4, h5⟩ :=
    c3_backspace_remove c3State c3Cb bsEvent 0 rfl (Or.inr ⟨rfl, rfl⟩) (by decide)
  exact ⟨h1, h2, h3, h4, h5⟩

/-- C4: a Backspace-triggered merge attempt (caret at start, collapsed selection,
current input is the first input, not the first block, removal branch not taken)
merges the current and previous blocks only when both share the same type name and
the target is mergeable; otherwise an input-less or empty target block is removed
with the caret set to the current block and the toolbar closed, and any other
target is reached by caret navigation to the previous block. -/
theorem c4_backspace_merge (s : EditorState) (cb pb : Block) (e : KeyEvent)
    (hcb : currentBlock s = some cb) (hpb : previousBlock s = some pb)
    (hsel : cb.selected = false) (hemp : cb.isEmpty = false)
    (hfi : cb.currentInputIsFirst = true)
    (hst : s.caretIsAtStart = true) (hcol : s.selectionIsCollapsed = true)
    (hnz : s.currentBlockIndex ≠ 0) :
    (backspace s e).isOk = true ∧
    ((cb.name = pb.name ∧ pb.mergeable = true) →
      Op.blocksMergeOp ∈ (backspace s e).traceOf ∧
      (backspace s e).stateOf.blocks.length + 1 = s.blocks.length) ∧
    (¬ (cb.name = pb.name ∧ pb.mergeable = true) →
      Op.blocksMergeOp ∉ (backspace s e).traceOf ∧
      ((pb.inputsCount = 0 ∨ pb.isEmpty = true) →
        (backspace s e).traceOf =
          [Op.preventDefault, Op.removeBlockAt (s.currentBlockIndex - 1),
           Op.caretSetToBlock
             (removeBlockAtState s (s.currentBlockIndex - 1)).currentBlockIndex
             CaretPos.DEFAULT,
           Op.toolbarClose] ∧
        (backspace s e).stateOf.blocks.map Block.name =
          (s.blocks.eraseIdx (s.currentBlockIndex - 1)).map Block.name ∧
        (backspace s e).stateOf.toolbarOpened = false) ∧
      (¬ (pb.inputsCount = 0 ∨ pb.isEmpty = true) →
        Op.caretNavigatePrevious ∈ (backspace s e).traceOf ∧
        (backspace s e).stateOf.blocks = s.blocks)) := by
  have hlt : s.currentBlockIndex < s.blocks.length := get?_some_lt hcb
  have h0 : (s.currentBlockIndex == 0) = false := by simpa using hnz
  have hbs : backspace s e = (mergeBlocksStep s).withPre [Op.preventDefault] := by
    simp [backspace, hcb, hsel, hemp, hst, hcol, hfi, h0]
  rw [hbs]
  refine ⟨?_, ?_, ?_⟩
  · simp only [mergeBlocksStep, hpb, hcb]
    split
    · split
      · simp [KdResult.withPre, KdResult.isOk]
      · split <;> simp [KdResult.withPre, KdResult.isOk]
    · simp [KdResult.withPre, KdResult.isOk]
  · rintro ⟨hn, hm⟩
    have hcondF : (cb.name != pb.name || !pb.mergeable) = false := by simp [hn, hm]
    simp only [mergeBlocksStep, hpb, hcb, hcondF, Bool.false_eq_true, if_false,
      KdResult.withPre, KdResult.traceOf, KdResult.stateOf]
    refine ⟨by simp, ?_⟩
    have hle := List.length_eraseIdx (l := s.blocks) (i := s.currentBlockIndex)
    rw [if_pos hlt] at hle
    omega
  · intro hn
    have hcondT : (cb.name != pb.name || !pb.mergeable) = true := by
      by_cases h1 : cb.name = pb.name
      · cases hm : pb.mergeable
        · simp [hm]
        · exact absurd ⟨h1, hm⟩ hn
      · simp [bne_iff_ne, h1]
    refine ⟨?_, ?_, ?_⟩
    · simp only [mergeBlocksStep, hpb, hcb, hcondT, if_true]
      split
      · simp [KdResult.withPre, KdResult.traceOf]
      · split <;> simp [KdResult.withPre, KdResult.traceOf]
    · intro hio
      have hcond2T : (pb.inputsCount == 0 || pb.isEmpty) = true := by
        rcases hio with h | h
        · simp [h]
        · simp [h]
      simp only [mergeBlocksStep, hpb, hcb, hcondT, hcond2T, if_true,
        KdResult.withPre, KdResult.traceOf, KdResult.stateOf]
      exact ⟨by trivial, by trivial, by trivial⟩
    · intro hio
      have h1 : pb.inputsCount ≠ 0 := fun h => hio (Or.inl h)
      have h2 : pb.isEmpty = false := by
        cases h : pb.isEmpty
        · rfl
        · exact absurd (Or.inr h) hio
      have hcond2F : (pb.inputsCount == 0 || pb.isEmpty) = false := by
        simp [h1, h2]
      simp only [mergeBlocksStep, hpb, hcb, hcondT, hcond2F, if_true,
        Bool.false_eq_true, if_false]
      cases hnav : s.navPrevOk <;>
        simp [hnav, KdResult.withPre, KdResult.traceOf, KdResult.stateOf]

/-- C4 (witness): two blocks named "list" with a mergeable target actually merge. -/
theorem c4_backspace_merge_witness :
    Op.blocksMergeOp ∈ (backspace c4State bsEvent).traceOf ∧
    (backspace c4State bsEvent).stateOf.blocks.length + 1 = c4State.blocks.length := by
  exact (c4_backspace_merge c4State c4Cb c4Pb bsEvent rfl rfl rfl rfl rfl rfl rfl
    (by decide)).2.1 ⟨rfl, rfl⟩

theorem anyBlockSelected_modifyFocused (l : List Block) (i : Nat)
    (h : l.any (fun b => b.selected) = false) :
    (modifyBlockAt l i (fun b => { b with focused := true })).any (fun b => b.selected)
      = false := by
  induction l generalizing i with
  | nil => rfl
  | cons b rest ih =>
    cases i with
    | zero =>
      simp only [modifyBlockAt, List.any_cons] at h ⊢
      rcases Bool.or_eq_false_iff.mp h with ⟨h1, h2⟩
      simp [h1, h2]
    | succ n =>
      simp only [modifyBlockAt, List.any_cons] at h ⊢
      rcases Bool.or_eq_false_iff.mp h with ⟨h1, h2⟩
      simp [h1, ih n h2]

theorem findIdx_le_length_filter (l : List Block)
    (h : l.any (fun b => b.selected) = true) :
    l.findIdx (fun b => b.selected) ≤ (l.filter (fun b => !b.selected)).length := by
  induction l with
  | nil => simp at h
  | cons b rest ih =>
    cases hb : b.selected
    · have hr : rest.any (fun b => b.selected) = true := by simpa [hb] using h
      have := ih hr
      simp only [List.findIdx_cons, List.filter_cons, hb, cond_false, Bool.not_false,
        if_true, List.length_cons]
      omega
    · simp [List.findIdx_cons, hb]

/-- C5: keydown pre-processing closes the toolbar and the conversion toolbar and
clears block focus and block selection when the key is printable and no modifier
key is held; it does nothing for Tab, and for Enter while the toolbox, the block
settings, the inline toolbar or the conversion toolbar is open. -/
theorem c5_beforeKeydown (s : EditorState) (e : KeyEvent) :
    (isPrintableKey e.keyCode = true → e.ctrlKey = false → e.metaKey = false →
      e.altKey = false → e.shiftKey = false → e.keyCode ≠ keyCodes.TAB →
      ¬ (e.keyCode = keyCodes.ENTER ∧
          (s.toolboxOpened = true ∨ s.blockSettingsOpened = true ∨
           s.inlineToolbarOpened = true ∨ s.conversionToolbarOpened = true)) →
      beforeKeydownProcessing s e =
        (clearSelectionState (clearFocusedState
          { s with toolbarOpened := false, conversionToolbarOpened := false }),
         [Op.toolbarClose, Op.conversionToolbarClose, Op.clearFocused, Op.clearSelection])) ∧
    (e.keyCode = keyCodes.TAB → beforeKeydownProcessing s e = (s, [])) ∧
    (e.keyCode = keyCodes.ENTER →
      (s.toolboxOpened = true ∨ s.blockSettingsOpened = true ∨
       s.inlineToolbarOpened = true ∨ s.conversionToolbarOpened = true) →
      beforeKeydownProcessing s e = (s, [])) := by
  refine ⟨?_, ?_, ?_⟩
  · intro hpr hc hm ha hsh htab hent
    have hn : needToolbarClosing s e = true := by
      unfold needToolbarClosing
      by_cases hE : e.keyCode = keyCodes.ENTER
      · have h1 : s.toolboxOpened = false := by
          cases h : s.toolboxOpened
          · rfl
          · exact absurd ⟨hE, Or.inl h⟩ hent
        have h2 : s.blockSettingsOpened = false := by
          cases h : s.blockSettingsOpened
          · rfl
          · exact absurd ⟨hE, Or.inr (Or.inl h)⟩ hent
        have h3 : s.inlineToolbarOpened = false := by
          cases h : s.inlineToolbarOpened
          · rfl
          · exact absurd ⟨hE, Or.inr (Or.inr (Or.inl h))⟩ hent
        have h4 : s.conversionToolbarOpened = false := by
          cases h : s.conversionToolbarOpened
          · rfl
          · exact absurd ⟨hE, Or.inr (Or.inr (Or.inr h))⟩ hent
        simp [hsh, hE, h1, h2, h3, h4, keyCodes.ENTER, keyCodes.TAB]
      · have hEb : (e.keyCode == keyCodes.ENTER) = false := by
          simpa using hE
        have hTb : (e.keyCode == keyCodes.TAB) = false := by
          simpa using htab
        simp [hsh, hEb, hTb]
    simp [beforeKeydownProcessing, hn, hpr, hc, hm, ha, hsh]
  · intro hT
    simp [beforeKeydownProcessing, needToolbarClosing, hT]
  · intro hE hopen
    have hn : needToolbarClosing s e = false := by
      unfold needToolbarClosing
      rcases hopen with h | h | h | h <;> simp [hE, h]
    simp [beforeKeydownProcessing, hn]

/-- C5 (witness): a plain letter keydown with all panels closed clears everything. -/
theorem c5_beforeKeydown_witness :
    beforeKeydownProcessing c5State letterEvent =
      (clearSelectionState (clearFocusedState
        { c5State with toolbarOpened := false, conversionToolbarOpened := false }),
       [Op.toolbarClose, Op.conversionToolbarClose, Op.clearFocused, Op.clearSelection]) := by
  exact (c5_beforeKeydown c5State letterEvent).1 rfl rfl rfl rfl rfl (by decide) (by decide)

theorem any_selected_map_clear (l : List Block) :
    (l.map (fun b => { b with selected := false })).any (fun b => b.selected) = false := by
  induction l with
  | nil => rfl
  | cons b rest ih => simpa using ih

/-- C6: a Tab keydown with a current block first clears the block selection; it
opens the block-insertion toolbox when the current block is empty and of the
default tool; otherwise it opens the block settings, unless the conversion toolbar
is open on a non-empty block, or the inline toolbar is open with a non-collapsed
selection on a non-empty block, in which case neither panel is opened. -/
theorem c6_tab (s : EditorState) (cb : Block) (e : KeyEvent)
    (hcb : currentBlock s = some cb) :
    ((tabPressed s e).2.take 2 = [Op.preventDefault, Op.clearSelection]) ∧
    anyBlockSelected (tabPressed s e).1 = false ∧
    (cb.isEmpty = true → cb.tool.isDefault = true →
      (tabPressed s e).1.toolboxOpened = true ∧
      (tabPressed s e).1.blockSettingsOpened = s.blockSettingsOpened) ∧
    (¬ (cb.isEmpty = true ∧ cb.tool.isDefault = true) →
      (((cb.isEmpty = false ∧ s.conversionToolbarOpened = true) ∨
        (cb.isEmpty = false ∧ s.selectionIsCollapsed = false ∧
         s.inlineToolbarOpened = true)) →
        (tabPressed s e).1.toolboxOpened = s.toolboxOpened ∧
        (tabPressed s e).1.blockSettingsOpened = s.blockSettingsOpened ∧
        Op.toolboxOpen ∉ (tabPressed s e).2 ∧ Op.blockSettingsOpen ∉ (tabPressed s e).2) ∧
      (¬ ((cb.isEmpty = false ∧ s.conversionToolbarOpened = true) ∨
          (cb.isEmpty = false ∧ s.selectionIsCollapsed = false ∧
           s.inlineToolbarOpened = true)) →
        (tabPressed s e).1.blockSettingsOpened = true)) := by
  have hcb0 : currentBlock (clearSelectionState s) = some { cb with selected := false } := by
    simp only [currentBlock, clearSelectionState, List.get?_map]
    rw [show s.blocks.get? s.currentBlockIndex = some cb from hcb]
    rfl
  refine ⟨?_, ?_, ?_, ?_⟩
  · simp only [tabPressed, hcb0]
    split
    · simp [List.take_succ_cons]
    · split
      · simp [List.take_succ_cons]
      · simp [List.take_succ_cons]
  · simp only [tabPressed, hcb0]
    split
    · simp only [activateToolbox]
      split <;>
        simpa [anyBlockSelected, clearSelectionState] using any_selected_map_clear s.blocks
    · split
      · simp only [activateBlockSettings]
        split
        · split <;>
            · simp only [anyBlockSelected, clearSelectionState]
              exact anyBlockSelected_modifyFocused _ _ (any_selected_map_clear s.blocks)
        · split <;>
            simpa [anyBlockSelected, clearSelectionState] using any_selected_map_clear s.blocks
      · simpa [anyBlockSelected, clearSelectionState] using any_selected_map_clear s.blocks
  · intro h1 h2
    have hcond : (({ cb with selected := false }).tool.isDefault &&
        ({ cb with selected := false }).isEmpty) = true := by
      simp [h1, h2]
    simp only [tabPressed, hcb0, hcond, if_true, activateToolbox]
    split <;> simp [clearSelectionState]
  · intro hn
    have hcond : (({ cb with selected := false }).tool.isDefault &&
        ({ cb with selected := false }).isEmpty) = false := by
      cases he : cb.isEmpty
      · simp
      · cases hd : cb.tool.isDefault
        · simp [hd]
        · exact absurd ⟨he, hd⟩ hn
    constructor
    · intro hor
      have htunes : ((!(!({ cb with selected := false }).isEmpty &&
            (clearSelectionState s).conversionToolbarOpened)) &&
          (!(!({ cb with selected := false }).isEmpty &&
            !(clearSelectionState s).selectionIsCollapsed &&
            (clearSelectionState s).inlineToolbarOpened))) = false := by
        rcases hor with ⟨hne, hconv⟩ | ⟨hne, hncol, hinl⟩
        · simp [hne, hconv, clearSelectionState]
        · simp [hne, hncol, hinl, clearSelectionState]
      simp only [tabPressed, hcb0, hcond, Bool.false_eq_true, if_false, htunes]
      refine ⟨rfl, rfl, ?_, ?_⟩ <;> simp
    · intro hnor
      have hconvF : ((!({ cb with selected := false }).isEmpty) &&
          (clearSelectionState s).conversionToolbarOpened) = false := by
        cases he : cb.isEmpty
        · cases hc : s.conversionToolbarOpened
          · simp [clearSelectionState, hc]
          · exact absurd (Or.inl ⟨he, hc⟩) hnor
        · simp [he]
      have hinlF : ((!({ cb with selected := false }).isEmpty) &&
          !(clearSelectionState s).selectionIsCollapsed &&
          (clearSelectionState s).inlineToolbarOpened) = false := by
        cases he : cb.isEmpty
        · cases hcol : s.selectionIsCollapsed
          · cases hi : s.inlineToolbarOpened
            · simp [clearSelectionState, hi]
            · exact absurd (Or.inr ⟨he, hcol, hi⟩) hnor
          · simp [clearSelectionState, hcol]
        · simp [he]
      simp only [tabPressed, hcb0, hcond, Bool.false_eq_true, if_false, hconvF, hinlF,
        Bool.not_false, Bool.and_true, Bool.true_and, if_true, activateBlockSettings]
      split
      · split <;> simp_all
      · split <;> simp_all [clearSelectionState]

/-- C6 (witness): Tab on an empty default block opens the toolbox. -/
theorem c6_tab_witness :
    (tabPressed c6State tabEvent).2.take 2 = [Op.preventDefault, Op.clearSelection] ∧
    (tabPressed c6State tabEvent).1.toolboxOpened = true ∧
    (tabPressed c6State tabEvent).1.blockSettingsOpened = false := by
  obtain ⟨h1, _, h3, _⟩ := c6_tab c6State c6Cb tabEvent rfl
  obtain ⟨h31, h32⟩ := h3 rfl rfl
  exact ⟨h1, h31, h32⟩

/-- C7: the cut handler does nothing without a block selection; with one, it issues
exactly the copy of the selected blocks, then their removal, then the insertion of a
default block at the removal index, then the caret placement at the start of the
inserted block, then the clearing of the selection, in that order; afterwards a
block of the default type sits at the removal index. -/
theorem c7_cut (s : EditorState) :
    (anyBlockSelected s = false → handleCommandX s = (s, [])) ∧
    (anyBlockSelected s = true →
      (handleCommandX s).2 =
        [Op.copySelectedBlocks, Op.removeSelectedBlocks,
         Op.insertDefaultBlockAt (s.blocks.findIdx (fun b => b.selected)) true s.defaultBlock,
         Op.caretSetToBlock (s.blocks.findIdx (fun b => b.selected)) CaretPos.START,
         Op.clearSelection] ∧
      ((handleCommandX s).1.blocks.get? (s.blocks.findIdx (fun b => b.selected))).map
        Block.name = some s.defaultBlock) := by
  constructor
  · intro h
    simp [handleCommandX, h]
  · intro h
    simp only [handleCommandX, h, Bool.not_true, Bool.false_eq_true, if_false]
    refine ⟨rfl, ?_⟩
    have hle : s.blocks.findIdx (fun b => b.selected) ≤
        (s.blocks.filter (fun b => !b.selected)).length :=
      findIdx_le_length_filter s.blocks h
    simp only [clearSelectionState, insertDefaultBlockAtIndex, List.get?_map]
    rw [insertAt_get?_self _ _ _ hle]
    rfl

/-- C7 (witness): concrete cut of a selected quote block. -/
theorem c7_cut_witness :
    (handleCommandX c7State).2 =
      [Op.copySelectedBlocks, Op.removeSelectedBlocks,
       Op.insertDefaultBlockAt 1 true "paragraph",
       Op.caretSetToBlock 1 CaretPos.START, Op.clearSelection] ∧
    ((handleCommandX c7State).1.blocks.get? 1).map Block.name = some "paragraph" := by
  exact (c7_cut c7State).2 rfl

theorem map_name_clearFoc (l : List Block) :
    (l.map (fun b => { b with focused := false })).map Block.name = l.map Block.name := by
  induction l with
  | nil => rfl
  | cons b rest ih => simp

theorem arrowRightAndDown_names (s : EditorState) (e : KeyEvent) :
    (arrowRightAndDown s e).1.blocks.map Block.name = s.blocks.map Block.name := by
  unfold arrowRightAndDown
  dsimp only
  split
  · rfl
  · split
    · simpa [clearFocusedState] using map_name_clearFoc s.blocks
    · simp only [clearSelectionState, clearFocusedState]
      rw [show ∀ l : List Block,
          (l.map (fun b => { b with selected := false })).map Block.name = l.map Block.name
        from map_name_clearSel]
      exact map_name_clearFoc s.blocks

theorem arrowLeftAndUp_names (s : EditorState) (e : KeyEvent) :
    (arrowLeftAndUp s e).1.blocks.map Block.name = s.blocks.map Block.name := by
  unfold arrowLeftAndUp
  dsimp only
  split
  · rfl
  · split
    · split <;> simpa [clearFocusedState] using map_name_clearFoc s.blocks
    · split <;>
        · simp only [clearSelectionState, clearFocusedState]
          rw [show ∀ l : List Block,
              (l.map (fun b => { b with selected := false })).map Block.name = l.map Block.name
            from map_name_clearSel]
          exact map_name_clearFoc s.blocks

/-- C8: Shift+Cmd+ArrowDown (respectively ArrowUp) on a block named "image" throws
and leaves the block order unchanged when there is no next block (respectively when
the block is first or has no previous block); otherwise it moves the block one
position down (respectively up). -/
theorem c8_reorder (s : EditorState) (cb : Block)
    (hcb : s.blocks.get? s.currentBlockIndex = some cb) (him : cb.name = "image") :
    (s.blocks.get? (s.currentBlockIndex + 1) = none →
      (keydown s reorderDownEvent).isOk = false ∧
      (keydown s reorderDownEvent).stateOf.blocks = s.blocks) ∧
    (∀ nb, s.blocks.get? (s.currentBlockIndex + 1) = some nb →
      (keydown s reorderDownEvent).isOk = true ∧
      (keydown s reorderDownEvent).stateOf.blocks.map Block.name =
        (insertAt (s.blocks.eraseIdx s.currentBlockIndex)
          (s.currentBlockIndex + 1) cb).map Block.name) ∧
    ((s.currentBlockIndex = 0 ∨ s.blocks.get? (s.currentBlockIndex - 1) = none) →
      (keydown s reorderUpEvent).isOk = false ∧
      (keydown s reorderUpEvent).stateOf.blocks = s.blocks) ∧
    (∀ pb, s.currentBlockIndex ≠ 0 → s.blocks.get? (s.currentBlockIndex - 1) = some pb →
      (keydown s reorderUpEvent).isOk = true ∧
      (keydown s reorderUpEvent).stateOf.blocks.map Block.name =
        (insertAt (s.blocks.eraseIdx s.currentBlockIndex)
          (s.currentBlockIndex - 1) cb).map Block.name) := by
  have hpreD : beforeKeydownProcessing s reorderDownEvent = (s, []) := by
    simp [beforeKeydownProcessing, needToolbarClosing, reorderDownEvent]
  have hpreU : beforeKeydownProcessing s reorderUpEvent = (s, []) := by
    simp [beforeKeydownProcessing, needToolbarClosing, reorderUpEvent]
  have hcbE : s.blocks[s.currentBlockIndex]? = some cb := by simpa using hcb
  refine ⟨?_, ?_, ?_, ?_⟩
  · intro h
    have hE : s.blocks[s.currentBlockIndex + 1]? = none := by simpa using h
    simp only [keydown, hpreD]
    simp [keydownDownReorder, reorderDownEvent, keyCodes.BACKSPACE, keyCodes.ENTER,
      keyCodes.DOWN, hcbE, him, hE, KdResult.isOk, KdResult.stateOf]
  · intro nb h
    have hE : s.blocks[s.currentBlockIndex + 1]? = some nb := by simpa using h
    have hmove : keydownDownReorder s reorderDownEvent =
        KdResult.ok (moveBlockState s (s.currentBlockIndex + 1))
          [Op.scrollTo, Op.moveBlock (s.currentBlockIndex + 1)] := by
      simp [keydownDownReorder, reorderDownEvent, hcbE, him, hE]
    simp only [keydown, hpreD]
    simp only [hmove]
    simp only [reorderDownEvent, keyCodes.BACKSPACE, keyCodes.ENTER, keyCodes.DOWN]
    norm_num [KdResult.isOk, KdResult.stateOf]
    rw [arrowRightAndDown_names]
    simp [moveBlockState, hcbE]
  · intro h
    have hup : keydownUpReorder s reorderUpEvent =
        KdResult.err "Unable to move Block up since it is already the first" s [] := by
      rcases h with h0 | hnone
      · have hcb0 : s.blocks[(0 : Nat)]? = some cb := h0 ▸ hcbE
        simp [keydownUpReorder, reorderUpEvent, hcbE, hcb0, him, h0]
      · have hE : s.blocks[s.currentBlockIndex - 1]? = none := by simpa using hnone
        by_cases h0 : s.currentBlockIndex = 0
        · have hcb0 : s.blocks[(0 : Nat)]? = some cb := h0 ▸ hcbE
          simp [keydownUpReorder, reorderUpEvent, hcbE, hcb0, him, h0]
        · simp [keydownUpReorder, reorderUpEvent, hcbE, him, h0, hE]
    simp only [keydown, hpreU]
    simp only [hup]
    simp only [reorderUpEvent, keyCodes.BACKSPACE, keyCodes.ENTER, keyCodes.DOWN,
      keyCodes.UP, keyCodes.RIGHT, keyCodes.LEFT, keyCodes.TAB]
    norm_num [KdResult.isOk, KdResult.stateOf]
  · intro pb h0 h
    have hE : s.blocks[s.currentBlockIndex - 1]? = some pb := by simpa using h
    have h0b : (s.currentBlockIndex == 0) = false := by simpa using h0
    have hmove : keydownUpReorder s reorderUpEvent =
        KdResult.ok (moveBlockState s (s.currentBlockIndex - 1))
          [Op.scrollBy, Op.moveBlock (s.currentBlockIndex - 1)] := by
      simp [keydownUpReorder, reorderUpEvent, hcbE, him, h0b, hE]
    simp only [keydown, hpreU]
    simp only [hmove]
    simp only [reorderUpEvent, keyCodes.BACKSPACE, keyCodes.ENTER, keyCodes.DOWN,
      keyCodes.UP, keyCodes.RIGHT, keyCodes.LEFT, keyCodes.TAB]
    norm_num [KdResult.isOk, KdResult.stateOf]
    rw [arrowLeftAndUp_names]
    simp [moveBlockState, hcbE]

/-- C8 (witness): moving the first image block down succeeds and swaps the two
blocks; moving it up throws and leaves the order unchanged. -/
theorem c8_reorder_witness :
    (keydown c8State reorderDownEvent).isOk = true ∧
    (keydown c8State reorderDownEvent).stateOf.blocks.map Block.name =
      ["paragraph", "image"] ∧
    (keydown c8State reorderUpEvent).isOk = false ∧
    (keydown c8State reorderUpEvent).stateOf.blocks = c8State.blocks := by
  obtain ⟨_, h2, h3, _⟩ := c8_reorder c8State c8Image rfl rfl
  have hd := h2 sampleParagraph rfl
  have hu := h3 (Or.inl rfl)
  exact ⟨hd.1, hd.2, hu.1, hu.2⟩

theorem someToolbarOpened_moveBlockState (s : EditorState) (i : Nat) :
    someToolbarOpened (moveBlockState s i) = someToolbarOpened s := by
  unfold moveBlockState
  split <;> rfl

theorem keydownDownReorder_flags (s : EditorState) (e : KeyEvent) (s1 : EditorState)
    (tr1 : List Op) (h : keydownDownReorder s e = KdResult.ok s1 tr1) :
    someToolbarOpened s1 = someToolbarOpened s := by
  unfold keydownDownReorder at h
  by_cases h1 : (e.shiftKey && e.metaKey) = true
  · rw [if_pos h1] at h
    cases hget : s.blocks.get? s.currentBlockIndex with
    | none => rw [hget] at h; cases h
    | some cb =>
      rw [hget] at h
      dsimp only at h
      by_cases h2 : (cb.name == "image") = true
      · rw [if_pos h2] at h
        cases hnb : s.blocks.get? (s.currentBlockIndex + 1) with
        | none => rw [hnb] at h; cases h
        | some nb =>
          rw [hnb] at h
          dsimp only at h
          cases h
          exact someToolbarOpened_moveBlockState s _
      · rw [if_neg h2] at h
        cases h
        rfl
  · rw [if_neg h1] at h
    cases h
    rfl

theorem keydownUpReorder_flags (s : EditorState) (e : KeyEvent) (s1 : EditorState)
    (tr1 : List Op) (h : keydownUpReorder s e = KdResult.ok s1 tr1) :
    someToolbarOpened s1 = someToolbarOpened s := by
  unfold keydownUpReorder at h
  by_cases h1 : (e.shiftKey && e.metaKey) = true
  · rw [if_pos h1] at h
    cases hget : s.blocks.get? s.currentBlockIndex with
    | none => rw [hget] at h; cases h
    | some cb =>
      rw [hget] at h
      dsimp only at h
      by_cases h2 : (cb.name == "image") = true
      · rw [if_pos h2] at h
        by_cases h3 : (s.currentBlockIndex == 0 ||
            (if s.currentBlockIndex == 0 then none
             else s.blocks.get? (s.currentBlockIndex - 1)).isNone) = true
        · rw [if_pos h3] at h
          cases h
        · rw [if_neg h3] at h
          cases h
          exact someToolbarOpened_moveBlockState s _
      · rw [if_neg h2] at h
        cases h
        rfl
  · rw [if_neg h1] at h
    cases h
    rfl

theorem arrowRightAndDown_mem (s : EditorState) (e : KeyEvent)
    (h : ¬ (someToolbarOpened s = true ∧ isFlipperCombination e = true)) :
    Op.clearFocused ∈ (arrowRightAndDown s e).2 ∧
    Op.toolbarClose ∈ (arrowRightAndDown s e).2 ∧
    (e.shiftKey = false → Op.clearSelection ∈ (arrowRightAndDown s e).2) := by
  have hc : (someToolbarOpened s && isFlipperCombination e) = false := by
    cases h1 : someToolbarOpened s
    · simp
    · cases h2 : isFlipperCombination e
      · simp
      · exact absurd ⟨h1, h2⟩ h
  unfold arrowRightAndDown
  rw [hc]
  simp only [Bool.false_eq_true, if_false]
  split
  · rename_i hcbs
    have hs : e.shiftKey = true := by
      cases hsk : e.shiftKey
      · rw [hsk] at hcbs
        simp at hcbs
      · rfl
    refine ⟨by simp, by simp, ?_⟩
    intro hf
    rw [hf] at hs
    cases hs
  · refine ⟨by simp, by simp, fun _ => by simp⟩

theorem arrowLeftAndUp_mem (s : EditorState) (e : KeyEvent)
    (h : ¬ (someToolbarOpened s = true ∧ isFlipperCombination e = true)) :
    Op.clearFocused ∈ (arrowLeftAndUp s e).2 ∧
    Op.toolbarClose ∈ (arrowLeftAndUp s e).2 ∧
    (e.shiftKey = false → Op.clearSelection ∈ (arrowLeftAndUp s e).2) := by
  have hc : (someToolbarOpened s && isFlipperCombination e) = false := by
    cases h1 : someToolbarOpened s
    · simp
    · cases h2 : isFlipperCombination e
      · simp
      · exact absurd ⟨h1, h2⟩ h
  unfold arrowLeftAndUp
  rw [hc]
  simp only [Bool.false_eq_true, if_false]
  split
  · rename_i hcbs
    have hs : e.shiftKey = true := by
      cases hsk : e.shiftKey
      · rw [hsk] at hcbs
        simp at hcbs
      · rfl
    refine ⟨by simp, by simp, ?_⟩
    intro hf
    rw [hf] at hs
    cases hs
  · refine ⟨by simp, by simp, fun _ => by simp⟩

/-- C9: every ArrowDown keydown that completes without throwing falls through from
the DOWN case into the RIGHT case, so the final state and the tail of the trace are
produced by the right-and-down arrow handler — which, unless a toolbar flipper
consumes the key, clears block focus, closes the toolbar and (for a shift-less
press) clears the block selection; symmetrically every ArrowUp keydown falls
through into the LEFT case and the left-and-up handler runs. -/
theorem c9_arrow_fallthrough (s : EditorState) (e : KeyEvent) :
    (e.keyCode = keyCodes.DOWN →
      ∀ s2 tr, keydown s e = KdResult.ok s2 tr →
        ∃ s1 t1, s2 = (arrowRightAndDown s1 e).1 ∧ tr = t1 ++ (arrowRightAndDown s1 e).2 ∧
          (¬ (someToolbarOpened s = true ∧ isFlipperCombination e = true) →
            Op.clearFocused ∈ tr ∧ Op.toolbarClose ∈ tr ∧
            (e.shiftKey = false → Op.clearSelection ∈ tr))) ∧
    (e.keyCode = keyCodes.UP →
      ∀ s2 tr, keydown s e = KdResult.ok s2 tr →
        ∃ s1 t1, s2 = (arrowLeftAndUp s1 e).1 ∧ tr = t1 ++ (arrowLeftAndUp s1 e).2 ∧
          (¬ (someToolbarOpened s = true ∧ isFlipperCombination e = true) →
            Op.clearFocused ∈ tr ∧ Op.toolbarClose ∈ tr ∧
            (e.shiftKey = false → Op.clearSelection ∈ tr))) := by
  constructor
  · intro hk s2 tr hok
    have hp : isPrintableKey e.keyCode = false := by rw [hk]; decide
    have hpre : beforeKeydownProcessing s e = (s, []) := by
      unfold beforeKeydownProcessing
      rw [hp]
      split <;> rfl
    unfold keydown at hok
    rw [hpre] at hok
    rw [hk] at hok
    norm_num [keyCodes.BACKSPACE, keyCodes.ENTER, keyCodes.DOWN] at hok
    cases hre : keydownDownReorder s e with
    | err m s1 tr1 =>
      rw [hre] at hok
      simp at hok
    | ok s1 tr1 =>
      rw [hre] at hok
      simp only [KdResult.ok.injEq, List.nil_append] at hok
      obtain ⟨hs2, htr⟩ := hok
      refine ⟨s1, tr1, hs2.symm, htr.symm, ?_⟩
      intro hno
      have hflags : someToolbarOpened s1 = someToolbarOpened s :=
        keydownDownReorder_flags s e s1 tr1 hre
      have hno1 : ¬ (someToolbarOpened s1 = true ∧ isFlipperCombination e = true) := by
        rw [hflags]
        exact hno
      obtain ⟨m1, m2, m3⟩ := arrowRightAndDown_mem s1 e hno1
      rw [← htr]
      exact ⟨List.mem_append_right _ m1, List.mem_append_right _ m2,
        fun hs => List.mem_append_right _ (m3 hs)⟩
  · intro hk s2 tr hok
    have hp : isPrintableKey e.keyCode = false := by rw [hk]; decide
    have hpre : beforeKeydownProcessing s e = (s, []) := by
      unfold beforeKeydownProcessing
      rw [hp]
      split <;> rfl
    unfold keydown at hok
    rw [hpre] at hok
    rw [hk] at hok
    norm_num [keyCodes.BACKSPACE, keyCodes.ENTER, keyCodes.DOWN, keyCodes.UP,
      keyCodes.RIGHT] at hok
    cases hre : keydownUpReorder s e with
    | err m s1 tr1 =>
      rw [hre] at hok
      simp at hok
    | ok s1 tr1 =>
      rw [hre] at hok
      simp only [KdResult.ok.injEq, List.nil_append] at hok
      obtain ⟨hs2, htr⟩ := hok
      refine ⟨s1, tr1, hs2.symm, htr.symm, ?_⟩
      intro hno
      have hflags : someToolbarOpened s1 = someToolbarOpened s :=
        keydownUpReorder_flags s e s1 tr1 hre
      have hno1 : ¬ (someToolbarOpened s1 = true ∧ isFlipperCombination e = true) := by
        rw [hflags]
        exact hno
      obtain ⟨m1, m2, m3⟩ := arrowLeftAndUp_mem s1 e hno1
      rw [← htr]
      exact ⟨List.mem_append_right _ m1, List.mem_append_right _ m2,
        fun hs => List.mem_append_right _ (m3 hs)⟩

/-- C9 (witness): a plain ArrowDown on a one-block editor runs the right-and-down
handler, whose clearing calls appear in the keydown trace. -/
theorem c9_arrow_fallthrough_witness :
    Op.clearFocused ∈ (keydown c9State arrowDownEvent).traceOf ∧
    Op.toolbarClose ∈ (keydown c9State arrowDownEvent).traceOf ∧
    Op.clearSelection ∈ (keydown c9State arrowDownEvent).traceOf := by
  have hok : keydown c9State arrowDownEvent =
      KdResult.ok (keydown c9State arrowDownEvent).stateOf
        (keydown c9State arrowDownEvent).traceOf := rfl
  obtain ⟨s1, t1, _, _, hmem⟩ :=
    (c9_arrow_fallthrough c9State arrowDownEvent).1 rfl
      (keydown c9State arrowDownEvent).stateOf
      (keydown c9State arrowDownEvent).traceOf hok
  obtain ⟨m1, m2, m3⟩ := hmem (by decide)
  exact ⟨m1, m2, m3 rfl⟩

theorem modifyBlockAt_get? : ∀ (l : List Block) (i : Nat) (f : Block → Block),
    (modifyBlockAt l i f).get? i = (l.get? i).map f := by
  intro l
  induction l with
  | nil => intro i f; rfl
  | cons b rest ih =>
    intro i f
    cases i with
    | zero => rfl
    | succ n => simpa [modifyBlockAt] using ih n f

/-- C10: the drag-over and drag-leave handlers dereference the block resolved from
the event target without a null check: they throw whenever the target does not
resolve to a block, and when it resolves to block i they set or clear that block's
drop-target flag. -/
theorem c10_drag (s : EditorState) :
    ((dragOver s none).isOk = false ∧ (dragLeave s none).isOk = false) ∧
    (∀ i b, s.blocks.get? i = some b →
      (dragOver s (some i)).isOk = true ∧
      (dragOver s (some i)).stateOf.blocks.get? i = some { b with dropTarget := true } ∧
      (dragLeave s (some i)).isOk = true ∧
      (dragLeave s (some i)).stateOf.blocks.get? i = some { b with dropTarget := false }) := by
  refine ⟨⟨rfl, rfl⟩, ?_⟩
  intro i b h
  refine ⟨rfl, ?_, rfl, ?_⟩
  · simp only [dragOver, KdResult.stateOf]
    rw [modifyBlockAt_get?, h]
    rfl
  · simp only [dragLeave, KdResult.stateOf]
    rw [modifyBlockAt_get?, h]
    rfl

/-- C10 (witness): a drag over the only block of the editor sets its drop-target
flag; an unresolved target throws. -/
theorem c10_drag_witness :
    (dragOver c10State none).isOk = false ∧
    (dragOver c10State (some 0)).isOk = true ∧
    (dragOver c10State (some 0)).stateOf.blocks.get? 0 =
      some { sampleParagraph with dropTarget := true } := by
  obtain ⟨⟨h1, _⟩, h2⟩ := c10_drag c10State
  obtain ⟨h3, h4, _, _⟩ := h2 0 sampleParagraph rfl
  exact ⟨h1, h3, h4⟩
